import Mathlib

/-!
Verification of the vault engine of go-password-manager.

This file shallowly embeds the Go sources:

* internal/domain (part_008 of the repository): `PasswordRecord`, `Vault`,
  `VaultMetadata`, the domain error variables, and the repository and
  crypto interfaces.
* internal/crypto/service.go: `DeriveKey`, `GenerateSalt`, `Encrypt`,
  `Decrypt`. The underlying primitives (Argon2id, AES-256-GCM, the OS
  random source) are external library calls, so they are embedded as an
  ideal deterministic KDF and an ideal AEAD: `DeriveKey` is injective and
  deterministic in (passphrase, salt); `Encrypt` draws a fresh nonce from
  a random-draw counter; `Decrypt` succeeds exactly when key and nonce
  match the ones used by `Encrypt` and fails closed otherwise.  The
  explicit argument checks of service.go (empty passphrase, empty salt)
  are kept; the key-length checks are always satisfied here because every
  key reaching Encrypt/Decrypt is a 32-byte Argon2id output, which the
  `Key` structure represents.
* internal/vault/repository.go: `Load`, `Save`, `Exists` over an
  association list from vault name to stored bytes.  Stored bytes either
  parse as metadata (`StoredBytes.meta`) or do not (`StoredBytes.corrupt`),
  which models the two failure modes of `Load` (os.IsNotExist versus
  json.Unmarshal failure).
* internal/application/service.go: the session engine.  Each
  `time.Now()` call reads an environment-supplied clock value:
  `AddPasswordRecord` performs two independent readings, one per
  timestamp (service.go:169-170), and `UpdatePasswordRecord` one
  (service.go:239); Go guarantees only that consecutive readings are
  non-decreasing, so the readings are free parameters; JSON marshalling of a `Vault` is lossless and is embedded
  as the identity, so AEAD plaintexts are `Vault` values; `uuid.New()` is
  an opaque fresh-identifier generator embedded as a counter.

Record identifiers are the draw index of `uuid.New()`; salts and nonces
carry the draw index of the random source that produced them (a salt is
32 random bytes, a nonce 12, per crypto/service.go).
-/

namespace PwdManager

/-- A 32-byte random salt, identified by the random draw that produced it
(crypto/service.go `GenerateSalt`). -/
structure Salt where
  draw : Nat
deriving DecidableEq, Repr

/-- A 12-byte random AES-GCM nonce, identified by the random draw that
produced it (crypto/service.go `Encrypt`). -/
structure Nonce where
  draw : Nat
deriving DecidableEq, Repr

/-- A 32-byte Argon2id key.  Argon2id is deterministic and (ideally)
injective in its inputs, so a key is represented by the passphrase and
salt it was derived from (crypto/service.go `DeriveKey`). -/
structure Key where
  password : String
  salt : Salt
deriving DecidableEq, Repr

/-- Domain error values of internal/domain plus the two wrapped
non-domain errors the engine can surface: `emptyPassword` stands for the
`fmt.Errorf` value `password cannot be empty` raised by
crypto/service.go:37 (wrapped by the engine), and `corruptMetadata` for
the `fmt.Errorf` value `failed to unmarshal vault metadata` raised by
repository.go:70.  The domain package has no dedicated constant for the
latter; it is nevertheless a value distinct from `ErrVaultNotFound`,
which this inductive reflects. -/
inductive VErr where
  | vaultNotFound
  | vaultAlreadyExists
  | invalidMasterPassword
  | recordNotFound
  | recordAlreadyExists
  | encryptionFailed
  | decryptionFailed
  | corruptMetadata
  | emptyPassword
deriving DecidableEq, Repr

/-- internal/domain `PasswordRecord` (part_008).  `id` is the draw index
of `uuid.New()`; timestamps are abstract clock values. -/
structure PasswordRecord where
  id : Nat
  name : String
  username : String
  password : String
  createdAt : Nat
  updatedAt : Nat
deriving DecidableEq, Repr

/-- internal/domain `Vault` (part_008). -/
structure Vault where
  name : String
  records : List PasswordRecord
deriving DecidableEq, Repr

/-- An AES-256-GCM sealed box.  The ideal AEAD remembers the nonce and
key it was sealed under and the plaintext it contains; `decrypt` releases
the plaintext exactly on a full match. -/
structure Ciphertext where
  nonce : Nonce
  plain : Vault
  key : Key
deriving DecidableEq, Repr

/-- internal/domain `VaultMetadata` (part_008). -/
structure VaultMetadata where
  version : String
  salt : Salt
  nonce : Nonce
  encrypted : Ciphertext
deriving DecidableEq, Repr

/-- Bytes stored under one vault name: either well-formed JSON of a
metadata value, or bytes that fail `json.Unmarshal` (tagged by an
arbitrary identifier). -/
inductive StoredBytes where
  | meta : VaultMetadata → StoredBytes
  | corrupt : Nat → StoredBytes
deriving DecidableEq, Repr

/-- Association-list lookup, first binding wins (Go map lookup / the
filesystem keyed by file name). -/
def assocFind {α : Type} : List (String × α) → String → Option α
  | [], _ => none
  | (k, v) :: rest, name => if k = name then some v else assocFind rest name

/-- Association-list overwrite-or-append (Go map store / `os.WriteFile`
overwriting a file wholesale). -/
def assocSet {α : Type} : List (String × α) → String → α → List (String × α)
  | [], name, v => [(name, v)]
  | (k, w) :: rest, name, v =>
      if k = name then (name, v) :: rest else (k, w) :: assocSet rest name v

/-- Association-list removal of the first binding (Go `delete`). -/
def assocErase {α : Type} : List (String × α) → String → List (String × α)
  | [], _ => []
  | (k, w) :: rest, name => if k = name then rest else (k, w) :: assocErase rest name

/-- crypto/service.go `DeriveKey`: rejects an empty passphrase, then runs
Argon2id.  The empty-salt branch of service.go:39 is unreachable from the
engine because every salt comes from `GenerateSalt` and has 32 bytes. -/
def deriveKey (password : String) (salt : Salt) : Except VErr Key :=
  if password = "" then Except.error VErr.emptyPassword
  else Except.ok { password := password, salt := salt }

/-- crypto/service.go `Encrypt`: draws a fresh 12-byte nonce from the
random source (the draw counter `rng`) and seals the plaintext; returns
the nonce, the ciphertext and the advanced counter.  The key-length check
of service.go:67 always passes for Argon2id-derived keys. -/
def encrypt (plain : Vault) (key : Key) (rng : Nat) : Nonce × Ciphertext × Nat :=
  (Nonce.mk rng, { nonce := Nonce.mk rng, plain := plain, key := key }, rng + 1)

/-- crypto/service.go `Decrypt`: fails closed unless the supplied key and
nonce are exactly the ones the box was sealed under. -/
def decrypt (nonce : Nonce) (ct : Ciphertext) (key : Key) : Except VErr Vault :=
  if ct.key = key ∧ ct.nonce = nonce then Except.ok ct.plain
  else Except.error VErr.decryptionFailed

/-- vault/repository.go `Load`: `ErrVaultNotFound` when no entry exists,
the distinct wrapped unmarshal error when the entry does not parse. -/
def repoLoad (store : List (String × StoredBytes)) (name : String) :
    Except VErr VaultMetadata :=
  match assocFind store name with
  | none => Except.error VErr.vaultNotFound
  | some (StoredBytes.meta m) => Except.ok m
  | some (StoredBytes.corrupt _) => Except.error VErr.corruptMetadata

/-- vault/repository.go `Exists`. -/
def repoExists (store : List (String × StoredBytes)) (name : String) : Bool :=
  (assocFind store name).isSome

/-- vault/repository.go `Save`: wholesale overwrite. -/
def repoSave (store : List (String × StoredBytes)) (name : String)
    (m : VaultMetadata) : List (String × StoredBytes) :=
  assocSet store name (StoredBytes.meta m)

/-- application/service.go `session`: decrypted vault plus derived key. -/
structure Session where
  vault : Vault
  key : Key
deriving DecidableEq, Repr

/-- The engine state: the persisted store, the session map of
`VaultService`, the random-draw counter feeding `GenerateSalt` and the
nonce generation inside `Encrypt`, and the `uuid.New()` draw counter. -/
structure EngineState where
  store : List (String × StoredBytes)
  sessions : List (String × Session)
  rng : Nat
  uuid : Nat
deriving DecidableEq, Repr

/-- The duplicate-name scan of application/service.go:157-161 (also used
by Get/Update/Delete for membership). -/
def hasRecordName (records : List PasswordRecord) (recordName : String) : Bool :=
  records.any fun r => r.name = recordName

/-- application/service.go `CreateVault`. -/
def CreateVault (s : EngineState) (name password : String) :
    Except VErr Unit × EngineState :=
  if repoExists s.store name then (Except.error VErr.vaultAlreadyExists, s)
  else
    let salt := Salt.mk s.rng
    match deriveKey password salt with
    | Except.error e => (Except.error e, { s with rng := s.rng + 1 })
    | Except.ok key =>
        let vault : Vault := { name := name, records := [] }
        let enc := encrypt vault key (s.rng + 1)
        let metadata : VaultMetadata :=
          { version := "1.0", salt := salt, nonce := enc.1, encrypted := enc.2.1 }
        (Except.ok (), { s with store := repoSave s.store name metadata, rng := enc.2.2 })

/-- application/service.go `UnlockVault`.  Any decryption failure is
reported as `ErrInvalidMasterPassword` (service.go:113); deserialization
of bytes produced by `json.Marshal` always succeeds. -/
def UnlockVault (s : EngineState) (name password : String) :
    Except VErr Unit × EngineState :=
  match repoLoad s.store name with
  | Except.error e => (Except.error e, s)
  | Except.ok m =>
      match deriveKey password m.salt with
      | Except.error e => (Except.error e, s)
      | Except.ok key =>
          match decrypt m.nonce m.encrypted key with
          | Except.error _ => (Except.error VErr.invalidMasterPassword, s)
          | Except.ok vault =>
              (Except.ok (),
               { s with sessions := assocSet s.sessions name { vault := vault, key := key } })

/-- application/service.go `LockVault`. -/
def LockVault (s : EngineState) (name : String) : Except VErr Unit × EngineState :=
  match assocFind s.sessions name with
  | none => (Except.error VErr.vaultNotFound, s)
  | some _ => (Except.ok (), { s with sessions := assocErase s.sessions name })

/-- application/service.go `IsVaultUnlocked`. -/
def IsVaultUnlocked (s : EngineState) (name : String) : Bool :=
  (assocFind s.sessions name).isSome

/-- application/service.go `saveVault`: marshal, encrypt under the
session key with a fresh nonce, re-load the still-current metadata to
preserve its salt, overwrite nonce and ciphertext, save. -/
def saveVault (s : EngineState) (name : String) (sess : Session) :
    Except VErr Unit × EngineState :=
  let enc := encrypt sess.vault sess.key s.rng
  match repoLoad s.store name with
  | Except.error e => (Except.error e, { s with rng := enc.2.2 })
  | Except.ok m =>
      let m2 := { m with nonce := enc.1, encrypted := enc.2.1 }
      (Except.ok (), { s with store := repoSave s.store name m2, rng := enc.2.2 })

/-- application/service.go `AddPasswordRecord`.  `nowC` and `nowU` are
the two independent `time.Now()` readings of service.go:169 and 170 that
stamp createdAt and updatedAt; the code does not force them to
coincide. -/
def AddPasswordRecord (s : EngineState) (vaultName recordName username password : String)
    (nowC nowU : Nat) : Except VErr Unit × EngineState :=
  match assocFind s.sessions vaultName with
  | none => (Except.error VErr.vaultNotFound, s)
  | some sess =>
      if hasRecordName sess.vault.records recordName then
        (Except.error VErr.recordAlreadyExists, s)
      else
        let record : PasswordRecord :=
          { id := s.uuid, name := recordName, username := username,
            password := password, createdAt := nowC, updatedAt := nowU }
        let sess2 : Session :=
          { vault := { name := sess.vault.name, records := sess.vault.records ++ [record] },
            key := sess.key }
        let s1 : EngineState :=
          { s with sessions := assocSet s.sessions vaultName sess2, uuid := s.uuid + 1 }
        match saveVault s1 vaultName sess2 with
        | (Except.error e, s2) => (Except.error e, s2)
        | (Except.ok _, s2) => (Except.ok (), s2)

/-- application/service.go `GetPasswordRecord` (pure; returns a copy of
the matched record). -/
def GetPasswordRecord (s : EngineState) (vaultName recordName : String) :
    Except VErr PasswordRecord :=
  match assocFind s.sessions vaultName with
  | none => Except.error VErr.vaultNotFound
  | some sess =>
      match sess.vault.records.find? (fun r => r.name = recordName) with
      | some r => Except.ok r
      | none => Except.error VErr.recordNotFound

/-- The in-place update loop of application/service.go:231-243: update
the first record whose name matches, leaving an empty-string argument's
field unchanged, stamping `updatedAt`; report whether a match was found. -/
def updateFirst (records : List PasswordRecord) (recordName username password : String)
    (now : Nat) : List PasswordRecord × Bool :=
  match records with
  | [] => ([], false)
  | r :: rest =>
      if r.name = recordName then
        ({ r with
            username := if username = "" then r.username else username,
            password := if password = "" then r.password else password,
            updatedAt := now } :: rest, true)
      else
        let u := updateFirst rest recordName username password now
        (r :: u.1, u.2)

/-- application/service.go `UpdatePasswordRecord`. -/
def UpdatePasswordRecord (s : EngineState) (vaultName recordName username password : String)
    (now : Nat) : Except VErr Unit × EngineState :=
  match assocFind s.sessions vaultName with
  | none => (Except.error VErr.vaultNotFound, s)
  | some sess =>
      let u := updateFirst sess.vault.records recordName username password now
      if u.2 then
        let sess2 : Session :=
          { vault := { name := sess.vault.name, records := u.1 }, key := sess.key }
        let s1 : EngineState := { s with sessions := assocSet s.sessions vaultName sess2 }
        match saveVault s1 vaultName sess2 with
        | (Except.error e, s2) => (Except.error e, s2)
        | (Except.ok _, s2) => (Except.ok (), s2)
      else (Except.error VErr.recordNotFound, s)

/-- The delete loop of application/service.go:271-277: remove the first
record whose name matches; report whether a match was found. -/
def eraseFirstRecord (records : List PasswordRecord) (recordName : String) :
    List PasswordRecord × Bool :=
  match records with
  | [] => ([], false)
  | r :: rest =>
      if r.name = recordName then (rest, true)
      else
        let u := eraseFirstRecord rest recordName
        (r :: u.1, u.2)

/-- application/service.go `DeletePasswordRecord`. -/
def DeletePasswordRecord (s : EngineState) (vaultName recordName : String) :
    Except VErr Unit × EngineState :=
  match assocFind s.sessions vaultName with
  | none => (Except.error VErr.vaultNotFound, s)
  | some sess =>
      let u := eraseFirstRecord sess.vault.records recordName
      if u.2 then
        let sess2 : Session :=
          { vault := { name := sess.vault.name, records := u.1 }, key := sess.key }
        let s1 : EngineState := { s with sessions := assocSet s.sessions vaultName sess2 }
        match saveVault s1 vaultName sess2 with
        | (Except.error e, s2) => (Except.error e, s2)
        | (Except.ok _, s2) => (Except.ok (), s2)
      else (Except.error VErr.recordNotFound, s)

/-- The record built by `AddPasswordRecord` (service.go:164-171):
createdAt from the first and updatedAt from the second `time.Now()`
reading. -/
def newRecord (s : EngineState) (recordName username password : String) (nowC nowU : Nat) :
    PasswordRecord :=
  { id := s.uuid, name := recordName, username := username, password := password,
    createdAt := nowC, updatedAt := nowU }

/-- A session whose vault has one more record appended (service.go:175). -/
def appendSession (sess : Session) (r : PasswordRecord) : Session :=
  { vault := { name := sess.vault.name, records := sess.vault.records ++ [r] },
    key := sess.key }

/-- The metadata written by `saveVault`: prior version and salt, fresh
nonce, re-encrypted session vault (service.go:319-327). -/
def savedMeta (m : VaultMetadata) (sess : Session) (rng : Nat) : VaultMetadata :=
  { m with nonce := Nonce.mk rng,
           encrypted := { nonce := Nonce.mk rng, plain := sess.vault, key := sess.key } }

theorem createVault_success (s : EngineState) (name password : String)
    (hex : assocFind s.store name = none) (hp : password ≠ "") :
    CreateVault s name password =
      (Except.ok (),
       { s with
           store := repoSave s.store name
             { version := "1.0", salt := Salt.mk s.rng, nonce := Nonce.mk (s.rng + 1),
               encrypted :=
                 { nonce := Nonce.mk (s.rng + 1), plain := { name := name, records := [] },
                   key := { password := password, salt := Salt.mk s.rng } } },
           rng := s.rng + 2 }) := by
  simp [CreateVault, repoExists, deriveKey, encrypt, hex, hp]

theorem unlockVault_success (s : EngineState) (name password : String) (m : VaultMetadata)
    (hload : assocFind s.store name = some (StoredBytes.meta m)) (hp : password ≠ "")
    (hkey : m.encrypted.key = { password := password, salt := m.salt })
    (hnonce : m.encrypted.nonce = m.nonce) :
    UnlockVault s name password =
      (Except.ok (),
       { s with sessions := (assocSet s.sessions name
           { vault := m.encrypted.plain, key := { password := password, salt := m.salt } }) }) := by
  simp [UnlockVault, repoLoad, deriveKey, decrypt, hload, hp, hkey, hnonce]

theorem lockVault_found (s : EngineState) (name : String) (sess : Session)
    (hs : assocFind s.sessions name = some sess) :
    LockVault s name = (Except.ok (), { s with sessions := assocErase s.sessions name }) := by
  simp [LockVault, hs]

theorem saveVault_ok (s : EngineState) (name : String) (sess : Session) (m : VaultMetadata)
    (hm : assocFind s.store name = some (StoredBytes.meta m)) :
    saveVault s name sess =
      (Except.ok (),
       { s with store := repoSave s.store name (savedMeta m sess s.rng), rng := s.rng + 1 }) := by
  simp [saveVault, repoLoad, encrypt, savedMeta, hm]

theorem addRecord_success (s : EngineState) (vaultName recordName username password : String)
    (nowC nowU : Nat) (sess : Session) (m : VaultMetadata)
    (hs : assocFind s.sessions vaultName = some sess)
    (hdup : hasRecordName sess.vault.records recordName = false)
    (hm : assocFind s.store vaultName = some (StoredBytes.meta m)) :
    AddPasswordRecord s vaultName recordName username password nowC nowU =
      (Except.ok (),
       { store := repoSave s.store vaultName
           (savedMeta m (appendSession sess (newRecord s recordName username password nowC nowU)) s.rng),
         sessions := assocSet s.sessions vaultName
           (appendSession sess (newRecord s recordName username password nowC nowU)),
         rng := s.rng + 1,
         uuid := s.uuid + 1 }) := by
  simp [AddPasswordRecord, saveVault, repoLoad, encrypt, savedMeta, appendSession, newRecord,
        hs, hdup, hm]

theorem hasRecordName_nil (recordName : String) : hasRecordName [] recordName = false := rfl

theorem hasRecordName_cons (r : PasswordRecord) (l : List PasswordRecord) (recordName : String) :
    hasRecordName (r :: l) recordName =
      (decide (r.name = recordName) || hasRecordName l recordName) := by
  simp [hasRecordName]

theorem hasRecordName_eq_false_iff (l : List PasswordRecord) (recordName : String) :
    hasRecordName l recordName = false ↔ ∀ r ∈ l, r.name ≠ recordName := by
  simp [hasRecordName]

theorem updateFirst_not_found (records : List PasswordRecord)
    (recordName username password : String) (now : Nat)
    (h : hasRecordName records recordName = false) :
    updateFirst records recordName username password now = (records, false) := by
  induction records with
  | nil => rfl
  | cons r rest ih =>
      rw [hasRecordName_cons, Bool.or_eq_false_iff] at h
      have hr : ¬ r.name = recordName := by simpa using h.1
      simp [updateFirst, hr, ih h.2]

/-- The single-record effect of the update loop of service.go:233-239: an
empty-string argument leaves its field unchanged, `updatedAt` is stamped
with the call's clock value, every other field is untouched. -/
def updatedRecord (r : PasswordRecord) (username password : String) (now : Nat) :
    PasswordRecord :=
  { r with
      username := if username = "" then r.username else username,
      password := if password = "" then r.password else password,
      updatedAt := now }

theorem updateFirst_split (pre post : List PasswordRecord) (r : PasswordRecord)
    (recordName username password : String) (now : Nat)
    (hpre : hasRecordName pre recordName = false) (hr : r.name = recordName) :
    updateFirst (pre ++ r :: post) recordName username password now =
      (pre ++ (updatedRecord r username password now :: post), true) := by
  induction pre with
  | nil => simp [updateFirst, updatedRecord, hr]
  | cons q rest ih =>
      rw [hasRecordName_cons, Bool.or_eq_false_iff] at hpre
      have hq : ¬ q.name = recordName := by simpa using hpre.1
      simp [updateFirst, hq, ih hpre.2]

theorem eraseFirstRecord_not_found (records : List PasswordRecord) (recordName : String)
    (h : hasRecordName records recordName = false) :
    eraseFirstRecord records recordName = (records, false) := by
  induction records with
  | nil => rfl
  | cons r rest ih =>
      rw [hasRecordName_cons, Bool.or_eq_false_iff] at h
      have hr : ¬ r.name = recordName := by simpa using h.1
      simp [eraseFirstRecord, hr, ih h.2]

theorem eraseFirstRecord_split (pre post : List PasswordRecord) (r : PasswordRecord)
    (recordName : String)
    (hpre : hasRecordName pre recordName = false) (hr : r.name = recordName) :
    eraseFirstRecord (pre ++ r :: post) recordName = (pre ++ post, true) := by
  induction pre with
  | nil => simp [eraseFirstRecord, hr]
  | cons q rest ih =>
      rw [hasRecordName_cons, Bool.or_eq_false_iff] at hpre
      have hq : ¬ q.name = recordName := by simpa using hpre.1
      simp [eraseFirstRecord, hq, ih hpre.2]

theorem find?_record_split (pre post : List PasswordRecord) (r : PasswordRecord)
    (recordName : String)
    (hpre : hasRecordName pre recordName = false) (hr : r.name = recordName) :
    (pre ++ r :: post).find? (fun q => q.name = recordName) = some r := by
  induction pre with
  | nil => simp [List.find?, hr]
  | cons q rest ih =>
      rw [hasRecordName_cons, Bool.or_eq_false_iff] at hpre
      have hq : ¬ q.name = recordName := by simpa using hpre.1
      simp [List.find?, hq, ih hpre.2]

theorem assocFind_assocSet_self {α : Type} (l : List (String × α)) (k : String) (v : α) :
    assocFind (assocSet l k v) k = some v := by
  induction l with
  | nil => simp [assocSet, assocFind]
  | cons p rest ih =>
      by_cases h : p.1 = k
      · simp [assocSet, assocFind, h]
      · simp [assocSet, assocFind, h, ih]

/-- A persisted vault created with passphrase `pw`: the metadata written
by a successful `CreateVault` with salt draw 0 and nonce draw 1. -/
def demoMeta (vname pw : String) : VaultMetadata :=
  { version := "1.0", salt := Salt.mk 0, nonce := Nonce.mk 1,
    encrypted := { nonce := Nonce.mk 1, plain := { name := vname, records := [] },
                   key := { password := pw, salt := Salt.mk 0 } } }

/-- A state holding one persisted, locked vault. -/
def demoLocked (vname pw : String) : EngineState :=
  { store := [(vname, StoredBytes.meta (demoMeta vname pw))], sessions := [],
    rng := 2, uuid := 0 }

/-- A state holding one persisted vault with an open session (empty vault). -/
def demoUnlocked (vname pw : String) : EngineState :=
  { store := [(vname, StoredBytes.meta (demoMeta vname pw))],
    sessions := [(vname, { vault := { name := vname, records := [] },
                           key := { password := pw, salt := Salt.mk 0 } })],
    rng := 2, uuid := 0 }

/-- C2: for every vault name and passphrase, when unlockVault's
authenticated decryption of the stored ciphertext fails, the operation
returns InvalidMasterPassword (the exact error value, never the generic
crypto error), and the resulting state is identical to the initial one:
no session is created or altered and the on-disk store is unchanged. -/
theorem C2_unlock_decrypt_failure (s : EngineState) (name password : String)
    (m : VaultMetadata)
    (hload : assocFind s.store name = some (StoredBytes.meta m))
    (hp : password ≠ "")
    (hfail : ¬ (m.encrypted.key = { password := password, salt := m.salt } ∧
                m.encrypted.nonce = m.nonce)) :
    UnlockVault s name password = (Except.error VErr.invalidMasterPassword, s) := by
  simp [UnlockVault, repoLoad, deriveKey, decrypt, hload, hp, hfail]

/-- Witness for C2: unlocking the demo vault (created with "pw") with the
wrong passphrase "wrong" fails with invalidMasterPassword and leaves the
state untouched. -/
theorem C2_unlock_decrypt_failure_witness :
    UnlockVault (demoLocked "v" "pw") "v" "wrong" =
      (Except.error VErr.invalidMasterPassword, demoLocked "v" "pw") :=
  C2_unlock_decrypt_failure (demoLocked "v" "pw") "v" "wrong" (demoMeta "v" "pw")
    (by decide) (by decide) (by decide)

/-- C6 counterexample: for the fresh name "v" (not present in the empty
store) and the empty passphrase, createVault does not persist any
metadata — it fails at key derivation — refuting the unconditional
"for every name not present, createVault ... persists the metadata". -/
theorem C6_counterexample :
    (CreateVault { store := [], sessions := [], rng := 0, uuid := 0 } "v" "").1 =
      Except.error VErr.emptyPassword
    ∧ assocFind
        (CreateVault { store := [], sessions := [], rng := 0, uuid := 0 } "v" "").2.store
        "v" = none := by
  exact ⟨rfl, rfl⟩

/-- C6 (amended: for a name not present, creation succeeds for a
NONEMPTY passphrase; with an empty passphrase key derivation fails and
nothing is persisted): for every vault name already present, createVault
fails with VaultAlreadyExists leaving the whole state (hence the existing
vault's content) unchanged; for every name not present and nonempty
passphrase, it generates a salt, derives a key, encrypts the serialized
empty vault, persists the metadata, and leaves the session map unchanged,
so the new vault is not implicitly unlocked. -/
theorem C6_createVault_spec (s : EngineState) (name password : String) :
    (repoExists s.store name = true →
        CreateVault s name password = (Except.error VErr.vaultAlreadyExists, s))
    ∧ (assocFind s.store name = none → password ≠ "" →
        CreateVault s name password =
          (Except.ok (),
           { s with
               store := repoSave s.store name
                 { version := "1.0", salt := Salt.mk s.rng, nonce := Nonce.mk (s.rng + 1),
                   encrypted :=
                     { nonce := Nonce.mk (s.rng + 1),
                       plain := { name := name, records := [] },
                       key := { password := password, salt := Salt.mk s.rng } } },
               rng := s.rng + 2 })
        ∧ (CreateVault s name password).2.sessions = s.sessions
        ∧ IsVaultUnlocked (CreateVault s name password).2 name = IsVaultUnlocked s name) := by
  constructor
  · intro h
    simp [CreateVault, h]
  · intro hex hp
    have h := createVault_success s name password hex hp
    refine ⟨h, ?_, ?_⟩
    · rw [h]
    · rw [h]
      simp [IsVaultUnlocked]

/-- Witness for C6: duplicate creation fails and changes nothing; fresh
creation with a nonempty passphrase succeeds, persists metadata, and does
not unlock the new vault. -/
theorem C6_createVault_spec_witness :
    CreateVault (demoLocked "v" "pw") "v" "other" =
      (Except.error VErr.vaultAlreadyExists, demoLocked "v" "pw")
    ∧ (CreateVault (demoLocked "v" "pw") "w" "pw2").1 = Except.ok ()
    ∧ IsVaultUnlocked (CreateVault (demoLocked "v" "pw") "w" "pw2").2 "w" = false := by
  refine ⟨(C6_createVault_spec (demoLocked "v" "pw") "v" "other").1 (by decide), ?_, ?_⟩
  · rw [((C6_createVault_spec (demoLocked "v" "pw") "w" "pw2").2 (by decide) (by decide)).1]
  · have h := ((C6_createVault_spec (demoLocked "v" "pw") "w" "pw2").2
      (by decide) (by decide)).2.2
    rw [h]
    decide

/-- C7: the store's load fails with VaultNotFound when no entry exists,
and with the distinct unmarshal-failure error (the spec's CorruptVault)
when the entry exists but cannot be parsed into the metadata structure;
the two error values are distinguishable. -/
theorem C7_load_error_taxonomy (store : List (String × StoredBytes)) (name : String) :
    (assocFind store name = none →
        repoLoad store name = Except.error VErr.vaultNotFound)
    ∧ (∀ b, assocFind store name = some (StoredBytes.corrupt b) →
        repoLoad store name = Except.error VErr.corruptMetadata)
    ∧ VErr.corruptMetadata ≠ VErr.vaultNotFound := by
  refine ⟨fun h => by simp [repoLoad, h], fun b h => by simp [repoLoad, h], by decide⟩

/-- Witness for C7: a missing entry loads as VaultNotFound; an
unparsable entry loads as the distinct corrupt-metadata error. -/
theorem C7_load_error_taxonomy_witness :
    repoLoad [] "a" = Except.error VErr.vaultNotFound
    ∧ repoLoad [("b", StoredBytes.corrupt 0)] "b" = Except.error VErr.corruptMetadata :=
  ⟨(C7_load_error_taxonomy [] "a").1 rfl,
   (C7_load_error_taxonomy [("b", StoredBytes.corrupt 0)] "b").2.1 0 rfl⟩

/-- A state like `demoUnlocked` whose open session already holds one
record named "github" (id 0, created and updated at clock 5). -/
def demoRecord : PasswordRecord :=
  { id := 0, name := "github", username := "alice", password := "p@ss1",
    createdAt := 5, updatedAt := 5 }

/-- A persisted vault with an open session holding `demoRecord`. -/
def demoWithRecord (vname pw : String) : EngineState :=
  { store := [(vname, StoredBytes.meta (demoMeta vname pw))],
    sessions := [(vname, { vault := { name := vname, records := [demoRecord] },
                           key := { password := pw, salt := Salt.mk 0 } })],
    rng := 2, uuid := 1 }

/-- C3: addRecord fails with VaultNotFound when no session exists for the
vault name (state unchanged); fails with RecordAlreadyExists when a
record with the exact same name is already present (state unchanged, so
the existing record is untouched); and on success assigns the next fresh
uuid draw (distinct from every id already in the vault whenever prior ids
are earlier draws), sets createdAt to the first and updatedAt to the
second of the call's two clock readings, appends the record to the in-memory vault, and persists the whole
updated vault into the store in the same call, so success is never
observed without the corresponding bytes being saved. -/
theorem C3_addRecord_spec (s : EngineState)
    (vaultName recordName username password : String) (nowC nowU : Nat) :
    (assocFind s.sessions vaultName = none →
        AddPasswordRecord s vaultName recordName username password nowC nowU =
          (Except.error VErr.vaultNotFound, s))
    ∧ (∀ sess, assocFind s.sessions vaultName = some sess →
        hasRecordName sess.vault.records recordName = true →
        AddPasswordRecord s vaultName recordName username password nowC nowU =
          (Except.error VErr.recordAlreadyExists, s))
    ∧ (∀ sess m, assocFind s.sessions vaultName = some sess →
        hasRecordName sess.vault.records recordName = false →
        assocFind s.store vaultName = some (StoredBytes.meta m) →
        AddPasswordRecord s vaultName recordName username password nowC nowU =
          (Except.ok (),
           { store := repoSave s.store vaultName
               (savedMeta m (appendSession sess (newRecord s recordName username password nowC nowU))
                 s.rng),
             sessions := assocSet s.sessions vaultName
               (appendSession sess (newRecord s recordName username password nowC nowU)),
             rng := s.rng + 1,
             uuid := s.uuid + 1 })
        ∧ (newRecord s recordName username password nowC nowU).createdAt = nowC
        ∧ (newRecord s recordName username password nowC nowU).updatedAt = nowU
        ∧ ((∀ r ∈ sess.vault.records, r.id < s.uuid) →
            ∀ r ∈ sess.vault.records,
              (newRecord s recordName username password nowC nowU).id ≠ r.id)
        ∧ assocFind
            (AddPasswordRecord s vaultName recordName username password nowC nowU).2.store
            vaultName =
          some (StoredBytes.meta
            (savedMeta m (appendSession sess (newRecord s recordName username password nowC nowU))
              s.rng))) := by
  refine ⟨fun h => by simp [AddPasswordRecord, h], fun sess hs hdup => ?_, ?_⟩
  · simp [AddPasswordRecord, hs, hdup]
  · intro sess m hs hdup hm
    have heq := addRecord_success s vaultName recordName username password nowC nowU sess m hs hdup hm
    refine ⟨heq, rfl, rfl, fun hlt r hr => ?_, ?_⟩
    · have := hlt r hr
      simp [newRecord]
      omega
    · rw [heq]
      simp [repoSave, assocFind_assocSet_self]

/-- Witness for C3: the locked demo state rejects an add with
VaultNotFound; the session holding a "github" record rejects a second
"github" with RecordAlreadyExists unchanged; the empty unlocked session
accepts the add. -/
theorem C3_addRecord_spec_witness :
    AddPasswordRecord (demoLocked "v" "pw") "v" "github" "alice" "p1" 7 7 =
      (Except.error VErr.vaultNotFound, demoLocked "v" "pw")
    ∧ AddPasswordRecord (demoWithRecord "v" "pw") "v" "github" "bob" "p2" 8 8 =
      (Except.error VErr.recordAlreadyExists, demoWithRecord "v" "pw")
    ∧ (AddPasswordRecord (demoUnlocked "v" "pw") "v" "github" "alice" "p1" 9 9).1 =
      Except.ok () := by
  refine ⟨(C3_addRecord_spec (demoLocked "v" "pw") "v" "github" "alice" "p1" 7 7).1 rfl,
    (C3_addRecord_spec (demoWithRecord "v" "pw") "v" "github" "bob" "p2" 8 8).2.1 _ rfl
      (by decide), ?_⟩
  rw [((C3_addRecord_spec (demoUnlocked "v" "pw") "v" "github" "alice" "p1" 9 9).2.2 _
    (demoMeta "v" "pw") rfl (by decide) rfl).1]

/-- C8: deleteRecord fails with VaultNotFound when no session exists
(state unchanged) and with RecordNotFound when no record matches exactly
(state unchanged); when the session's records split as pre ++ r :: post
with r the first record named recordName, it removes exactly r, keeps
every other record (pre and post untouched, in order), and persists the
resulting vault into the store in the same call. -/
theorem C8_deleteRecord_spec (s : EngineState) (vaultName recordName : String) :
    (assocFind s.sessions vaultName = none →
        DeletePasswordRecord s vaultName recordName = (Except.error VErr.vaultNotFound, s))
    ∧ (∀ sess, assocFind s.sessions vaultName = some sess →
        hasRecordName sess.vault.records recordName = false →
        DeletePasswordRecord s vaultName recordName = (Except.error VErr.recordNotFound, s))
    ∧ (∀ sess m pre post r, assocFind s.sessions vaultName = some sess →
        sess.vault.records = pre ++ r :: post →
        hasRecordName pre recordName = false →
        r.name = recordName →
        assocFind s.store vaultName = some (StoredBytes.meta m) →
        DeletePasswordRecord s vaultName recordName =
          (Except.ok (),
           { store := repoSave s.store vaultName
               (savedMeta m
                 { vault := { name := sess.vault.name, records := pre ++ post },
                   key := sess.key }
                 s.rng),
             sessions := assocSet s.sessions vaultName
               { vault := { name := sess.vault.name, records := pre ++ post },
                 key := sess.key },
             rng := s.rng + 1,
             uuid := s.uuid })
        ∧ assocFind (DeletePasswordRecord s vaultName recordName).2.store vaultName =
          some (StoredBytes.meta
            (savedMeta m
              { vault := { name := sess.vault.name, records := pre ++ post },
                key := sess.key }
              s.rng))) := by
  refine ⟨fun h => by simp [DeletePasswordRecord, h], fun sess hs hno => ?_, ?_⟩
  · simp [DeletePasswordRecord, hs, eraseFirstRecord_not_found sess.vault.records recordName hno]
  · intro sess m pre post r hs hrec hpre hr hm
    have hsplit := eraseFirstRecord_split pre post r recordName hpre hr
    have heq : DeletePasswordRecord s vaultName recordName =
        (Except.ok (),
         { store := repoSave s.store vaultName
             (savedMeta m
               { vault := { name := sess.vault.name, records := pre ++ post },
                 key := sess.key }
               s.rng),
           sessions := assocSet s.sessions vaultName
             { vault := { name := sess.vault.name, records := pre ++ post },
               key := sess.key },
           rng := s.rng + 1,
           uuid := s.uuid }) := by
      simp [DeletePasswordRecord, hs, hrec, hsplit, saveVault, repoLoad, encrypt, savedMeta, hm]
    refine ⟨heq, ?_⟩
    rw [heq]
    simp [repoSave, assocFind_assocSet_self]

/-- Witness for C8: deleting from the locked state fails with
VaultNotFound; deleting a missing name from the unlocked empty session
fails with RecordNotFound; deleting "github" from the session holding it
succeeds. -/
theorem C8_deleteRecord_spec_witness :
    DeletePasswordRecord (demoLocked "v" "pw") "v" "github" =
      (Except.error VErr.vaultNotFound, demoLocked "v" "pw")
    ∧ DeletePasswordRecord (demoUnlocked "v" "pw") "v" "github" =
      (Except.error VErr.recordNotFound, demoUnlocked "v" "pw")
    ∧ (DeletePasswordRecord (demoWithRecord "v" "pw") "v" "github").1 = Except.ok () := by
  refine ⟨(C8_deleteRecord_spec (demoLocked "v" "pw") "v" "github").1 rfl,
    (C8_deleteRecord_spec (demoUnlocked "v" "pw") "v" "github").2.1 _ rfl (by decide), ?_⟩
  rw [((C8_deleteRecord_spec (demoWithRecord "v" "pw") "v" "github").2.2 _
    (demoMeta "v" "pw") [] [] demoRecord rfl rfl rfl rfl rfl).1]

theorem updateRecord_success (s : EngineState)
    (vaultName recordName username password : String) (now : Nat)
    (sess : Session) (m : VaultMetadata) (pre post : List PasswordRecord) (r : PasswordRecord)
    (hs : assocFind s.sessions vaultName = some sess)
    (hrec : sess.vault.records = pre ++ r :: post)
    (hpre : hasRecordName pre recordName = false)
    (hr : r.name = recordName)
    (hm : assocFind s.store vaultName = some (StoredBytes.meta m)) :
    UpdatePasswordRecord s vaultName recordName username password now =
      (Except.ok (),
       { store := repoSave s.store vaultName
           (savedMeta m
             { vault := { name := sess.vault.name,
                          records := pre ++ (updatedRecord r username password now :: post) },
               key := sess.key }
             s.rng),
         sessions := assocSet s.sessions vaultName
           { vault := { name := sess.vault.name,
                        records := pre ++ (updatedRecord r username password now :: post) },
             key := sess.key },
         rng := s.rng + 1,
         uuid := s.uuid }) := by
  have hsplit := updateFirst_split pre post r recordName username password now hpre hr
  simp [UpdatePasswordRecord, hs, hrec, hsplit, saveVault, repoLoad, encrypt, savedMeta, hm]

/-- C5 counterexample: at clock value 5 — the same reading that stamped
the record — updating only the secret of "github" succeeds, yet the
refreshed updatedAt equals the prior updatedAt instead of being strictly
greater: the code merely assigns the current time (service.go:239), and
the clock need not have advanced (the repository's own test sleeps 10ms
precisely to dodge this). -/
theorem C5_counterexample :
    demoRecord.updatedAt = 5
    ∧ (UpdatePasswordRecord (demoWithRecord "v" "pw") "v" "github" "" "newpass" 5).1 =
        Except.ok ()
    ∧ GetPasswordRecord
        (UpdatePasswordRecord (demoWithRecord "v" "pw") "v" "github" "" "newpass" 5).2
        "v" "github" =
      Except.ok { id := 0, name := "github", username := "alice", password := "newpass",
                  createdAt := 5, updatedAt := 5 }
    ∧ ¬ demoRecord.updatedAt < 5 := by
  exact ⟨rfl, rfl, rfl, by decide⟩

/-- C5 (amended: the strict advance of updatedAt holds whenever the
update's clock reading is strictly later than the prior updatedAt; at an
unadvanced clock the new updatedAt equals the old): for every unlocked
vault whose records split as pre ++ r :: post with r the first record
named recordName, an update with only one field supplied changes exactly
that field — an empty (omitted) field is left unchanged — sets updatedAt
to the call's clock value (strictly greater than the prior updatedAt
whenever the clock advanced), leaves id, name and createdAt untouched,
leaves all other records untouched, and persists the result in the same
call. -/
theorem C5_updateRecord_frame (s : EngineState)
    (vaultName recordName username password : String) (now : Nat)
    (sess : Session) (m : VaultMetadata) (pre post : List PasswordRecord) (r : PasswordRecord)
    (hs : assocFind s.sessions vaultName = some sess)
    (hrec : sess.vault.records = pre ++ r :: post)
    (hpre : hasRecordName pre recordName = false)
    (hr : r.name = recordName)
    (hm : assocFind s.store vaultName = some (StoredBytes.meta m)) :
    UpdatePasswordRecord s vaultName recordName username password now =
      (Except.ok (),
       { store := repoSave s.store vaultName
           (savedMeta m
             { vault := { name := sess.vault.name,
                          records := pre ++ (updatedRecord r username password now :: post) },
               key := sess.key }
             s.rng),
         sessions := assocSet s.sessions vaultName
           { vault := { name := sess.vault.name,
                        records := pre ++ (updatedRecord r username password now :: post) },
             key := sess.key },
         rng := s.rng + 1,
         uuid := s.uuid })
    ∧ (updatedRecord r username password now).id = r.id
    ∧ (updatedRecord r username password now).name = r.name
    ∧ (updatedRecord r username password now).createdAt = r.createdAt
    ∧ (username = "" → (updatedRecord r username password now).username = r.username)
    ∧ (password = "" → (updatedRecord r username password now).password = r.password)
    ∧ (updatedRecord r username password now).updatedAt = now
    ∧ (r.updatedAt < now → r.updatedAt < (updatedRecord r username password now).updatedAt) := by
  refine ⟨updateRecord_success s vaultName recordName username password now sess m pre post r
    hs hrec hpre hr hm, rfl, rfl, rfl, ?_, ?_, rfl, ?_⟩
  · intro h
    simp [updatedRecord, h]
  · intro h
    simp [updatedRecord, h]
  · intro h
    simpa [updatedRecord] using h

/-- Witness for C5 (amended): updating only the username of "github" at
the later clock value 6 succeeds, leaves the secret and createdAt
unchanged, and strictly advances updatedAt. -/
theorem C5_updateRecord_frame_witness :
    (UpdatePasswordRecord (demoWithRecord "v" "pw") "v" "github" "bob" "" 6).1 =
      Except.ok ()
    ∧ (updatedRecord demoRecord "bob" "" 6).password = demoRecord.password
    ∧ (updatedRecord demoRecord "bob" "" 6).createdAt = demoRecord.createdAt
    ∧ demoRecord.updatedAt < (updatedRecord demoRecord "bob" "" 6).updatedAt := by
  have h := C5_updateRecord_frame (demoWithRecord "v" "pw") "v" "github" "bob" "" 6
    { vault := { name := "v", records := [demoRecord] },
      key := { password := "pw", salt := Salt.mk 0 } }
    (demoMeta "v" "pw") [] [] demoRecord rfl rfl rfl rfl rfl
  refine ⟨?_, h.2.2.2.2.2.1 rfl, h.2.2.2.1, h.2.2.2.2.2.2.2 (by decide)⟩
  rw [h.1]

/-- C4: starting from any state where the vault is unlocked and its
still-current stored metadata is m, a successful addRecord followed by a
successful updateRecord re-persist the vault twice; both persisted
metadata values keep the original salt m.salt (saveVault re-reads the
current metadata and only replaces nonce and ciphertext), and the two
persisted versions carry different, freshly drawn nonces. -/
theorem C4_salt_immutable_nonce_fresh (s s1 s2 : EngineState)
    (vaultName recordName username password u2 p2 : String) (now1C now1U now2 : Nat)
    (sess : Session) (m m1 m2 : VaultMetadata)
    (hs : assocFind s.sessions vaultName = some sess)
    (hdup : hasRecordName sess.vault.records recordName = false)
    (hm : assocFind s.store vaultName = some (StoredBytes.meta m))
    (h1 : s1 = (AddPasswordRecord s vaultName recordName username password now1C now1U).2)
    (hm1 : assocFind s1.store vaultName = some (StoredBytes.meta m1))
    (h2 : s2 = (UpdatePasswordRecord s1 vaultName recordName u2 p2 now2).2)
    (hm2 : assocFind s2.store vaultName = some (StoredBytes.meta m2)) :
    m1.salt = m.salt ∧ m2.salt = m.salt ∧ m1.nonce ≠ m2.nonce := by
  have hadd := addRecord_success s vaultName recordName username password now1C now1U sess m hs hdup hm
  have h1e : s1 =
      { store := repoSave s.store vaultName
          (savedMeta m (appendSession sess (newRecord s recordName username password now1C now1U))
            s.rng),
        sessions := assocSet s.sessions vaultName
          (appendSession sess (newRecord s recordName username password now1C now1U)),
        rng := s.rng + 1,
        uuid := s.uuid + 1 } := by
    rw [h1, hadd]
  subst h1e
  simp only [repoSave] at hm1
  rw [assocFind_assocSet_self] at hm1
  have hm1e : savedMeta m (appendSession sess (newRecord s recordName username password now1C now1U))
      s.rng = m1 :=
    StoredBytes.meta.inj (Option.some.inj hm1)
  have hupd := updateRecord_success
    { store := repoSave s.store vaultName
        (savedMeta m (appendSession sess (newRecord s recordName username password now1C now1U)) s.rng),
      sessions := assocSet s.sessions vaultName
        (appendSession sess (newRecord s recordName username password now1C now1U)),
      rng := s.rng + 1,
      uuid := s.uuid + 1 }
    vaultName recordName u2 p2 now2
    (appendSession sess (newRecord s recordName username password now1C now1U))
    (savedMeta m (appendSession sess (newRecord s recordName username password now1C now1U)) s.rng)
    sess.vault.records [] (newRecord s recordName username password now1C now1U)
    (assocFind_assocSet_self s.sessions vaultName _)
    rfl hdup rfl
    (assocFind_assocSet_self s.store vaultName
      (StoredBytes.meta
        (savedMeta m (appendSession sess (newRecord s recordName username password now1C now1U))
          s.rng)))
  have h2e : s2 =
      { store := repoSave
          (repoSave s.store vaultName
            (savedMeta m (appendSession sess (newRecord s recordName username password now1C now1U))
              s.rng))
          vaultName
          (savedMeta
            (savedMeta m (appendSession sess (newRecord s recordName username password now1C now1U))
              s.rng)
            { vault := { name := (appendSession sess
                           (newRecord s recordName username password now1C now1U)).vault.name,
                         records := sess.vault.records ++
                           (updatedRecord (newRecord s recordName username password now1C now1U)
                             u2 p2 now2 :: []) },
              key := (appendSession sess
                       (newRecord s recordName username password now1C now1U)).key }
            (s.rng + 1)),
        sessions := assocSet
          (assocSet s.sessions vaultName
            (appendSession sess (newRecord s recordName username password now1C now1U)))
          vaultName
          { vault := { name := (appendSession sess
                         (newRecord s recordName username password now1C now1U)).vault.name,
                       records := sess.vault.records ++
                         (updatedRecord (newRecord s recordName username password now1C now1U)
                           u2 p2 now2 :: []) },
            key := (appendSession sess
                     (newRecord s recordName username password now1C now1U)).key },
        rng := s.rng + 2,
        uuid := s.uuid + 1 } := by
    rw [h2, hupd]
  subst h2e
  simp only [repoSave] at hm2
  rw [assocFind_assocSet_self] at hm2
  have hm2e : savedMeta
      (savedMeta m (appendSession sess (newRecord s recordName username password now1C now1U)) s.rng)
      { vault := { name := (appendSession sess
                     (newRecord s recordName username password now1C now1U)).vault.name,
                   records := sess.vault.records ++
                     (updatedRecord (newRecord s recordName username password now1C now1U) u2 p2 now2
                       :: []) },
        key := (appendSession sess (newRecord s recordName username password now1C now1U)).key }
      (s.rng + 1) = m2 :=
    StoredBytes.meta.inj (Option.some.inj hm2)
  subst hm1e
  subst hm2e
  refine ⟨rfl, rfl, ?_⟩
  simp [savedMeta]

/-- State after adding ("github","alice","p1") at clock readings 10,10
to the demo unlocked vault. -/
def c4s1 : EngineState :=
  (AddPasswordRecord (demoUnlocked "v" "pw") "v" "github" "alice" "p1" 10 10).2

/-- State after then updating only the secret of "github" at clock 11. -/
def c4s2 : EngineState := (UpdatePasswordRecord c4s1 "v" "github" "" "p2" 11).2

/-- Metadata persisted by the add of `c4s1`. -/
def c4m1 : VaultMetadata :=
  { version := "1.0", salt := Salt.mk 0, nonce := Nonce.mk 2,
    encrypted :=
      { nonce := Nonce.mk 2,
        plain := { name := "v",
                   records := [{ id := 0, name := "github", username := "alice",
                                 password := "p1", createdAt := 10, updatedAt := 10 }] },
        key := { password := "pw", salt := Salt.mk 0 } } }

/-- Metadata persisted by the update of `c4s2`. -/
def c4m2 : VaultMetadata :=
  { version := "1.0", salt := Salt.mk 0, nonce := Nonce.mk 3,
    encrypted :=
      { nonce := Nonce.mk 3,
        plain := { name := "v",
                   records := [{ id := 0, name := "github", username := "alice",
                                 password := "p2", createdAt := 10, updatedAt := 11 }] },
        key := { password := "pw", salt := Salt.mk 0 } } }

/-- Witness for C4: on the demo vault, the two successive persisted
metadata values keep the creation salt and carry distinct nonces. -/
theorem C4_salt_immutable_nonce_fresh_witness :
    c4m1.salt = (demoMeta "v" "pw").salt ∧ c4m2.salt = (demoMeta "v" "pw").salt
    ∧ c4m1.nonce ≠ c4m2.nonce :=
  C4_salt_immutable_nonce_fresh (demoUnlocked "v" "pw") c4s1 c4s2 "v" "github" "alice" "p1"
    "" "p2" 10 10 11
    { vault := { name := "v", records := [] }, key := { password := "pw", salt := Salt.mk 0 } }
    (demoMeta "v" "pw") c4m1 c4m2 rfl (by decide) rfl rfl (by decide) rfl (by decide)

/-- The metadata written by createVault(name, password) when the random
counter stands at rng: salt draw rng, nonce draw rng+1, empty vault. -/
def createdMeta (name password : String) (rng : Nat) : VaultMetadata :=
  { version := "1.0", salt := Salt.mk rng, nonce := Nonce.mk (rng + 1),
    encrypted := { nonce := Nonce.mk (rng + 1), plain := { name := name, records := [] },
                   key := { password := password, salt := Salt.mk rng } } }

/-- The session installed by the first unlock of a vault created with
salt draw rng. -/
def freshSession (name password : String) (rng : Nat) : Session :=
  { vault := { name := name, records := [] },
    key := { password := password, salt := Salt.mk rng } }

/-- The session after the round trip's add: one record r. -/
def oneRecordSession (name password : String) (rng : Nat) (r : PasswordRecord) : Session :=
  { vault := { name := name, records := [r] },
    key := { password := password, salt := Salt.mk rng } }

/-- The round-trip pipeline of C1: create, unlock, add, lock, unlock,
get, started from state s0. -/
def roundTrip (s0 : EngineState) (v p n u sec : String) (nowC nowU : Nat) :
    Except VErr PasswordRecord :=
  GetPasswordRecord
    ((UnlockVault
        ((LockVault
            ((AddPasswordRecord
                ((UnlockVault ((CreateVault s0 v p).2) v p).2)
                v n u sec nowC nowU).2)
            v).2)
        v p).2)
    v n

/-- C1 counterexample, two refutations of the claim's universal form.
First, for the empty passphrase the pipeline fails — createVault aborts
at key derivation (crypto/service.go:37), so no vault exists and the
final getRecord returns VaultNotFound instead of the claimed record.
Second, even with a valid passphrase the two independent time.Now()
readings that stamp createdAt and updatedAt (service.go:169-170) need
not coincide: with readings 3 and then 4 the pipeline succeeds but the
returned record has createdAt 3 and updatedAt 4, refuting the
unconditional "createdAt equal to updatedAt". -/
theorem C1_counterexample :
    (¬ ∃ r : PasswordRecord,
        roundTrip { store := [], sessions := [], rng := 0, uuid := 0 }
          "v" "" "github" "alice" "p@ss1" 3 3 = Except.ok r
        ∧ r.name = "github" ∧ r.username = "alice" ∧ r.password = "p@ss1"
        ∧ r.createdAt = r.updatedAt)
    ∧ ¬ ∃ r : PasswordRecord,
        roundTrip { store := [], sessions := [], rng := 0, uuid := 0 }
          "v" "pw" "github" "alice" "p@ss1" 3 4 = Except.ok r
        ∧ r.name = "github" ∧ r.username = "alice" ∧ r.password = "p@ss1"
        ∧ r.createdAt = r.updatedAt := by
  constructor
  · intro h
    obtain ⟨r, hr, -⟩ := h
    have he : roundTrip { store := [], sessions := [], rng := 0, uuid := 0 }
        "v" "" "github" "alice" "p@ss1" 3 3 = Except.error VErr.vaultNotFound := rfl
    rw [he] at hr
    exact Except.noConfusion hr
  · intro h
    obtain ⟨r, hr, -, -, -, heq⟩ := h
    have he : roundTrip { store := [], sessions := [], rng := 0, uuid := 0 }
        "v" "pw" "github" "alice" "p@ss1" 3 4 =
        Except.ok { id := 0, name := "github", username := "alice", password := "p@ss1",
                    createdAt := 3, updatedAt := 4 } := rfl
    rw [he] at hr
    rw [← Except.ok.inj hr] at heq
    exact absurd heq (by decide)

/-- C1 (amended twice, as the counterexample forces: the passphrase must
be nonempty — with an empty passphrase createVault fails at key
derivation and the whole pipeline fails — and createdAt and updatedAt
are stamped by two independent time.Now() readings, service.go:169-170,
so they are equal exactly when those readings coincide, which the code
does not force): for every vault name v not yet stored, every NONEMPTY
passphrase p, and the add's clock readings nowC and nowU, after
createVault(v,p), unlockVault(v,p), addRecord, lockVault, and a second
unlockVault(v,p), getRecord returns exactly the added record: name n,
username u, secret sec, createdAt = nowC and updatedAt = nowU.  The
second unlock works because deriveKey is deterministic in
(passphrase, salt) and decrypt inverts encrypt under the same key. -/
theorem C1_roundtrip (s0 : EngineState) (v p n u sec : String) (nowC nowU : Nat)
    (hv : assocFind s0.store v = none) (hp : p ≠ "") :
    roundTrip s0 v p n u sec nowC nowU =
      Except.ok { id := s0.uuid, name := n, username := u, password := sec,
                  createdAt := nowC, updatedAt := nowU } := by
  have e1 : (CreateVault s0 v p).2 =
      { store := repoSave s0.store v (createdMeta v p s0.rng),
        sessions := s0.sessions, rng := s0.rng + 2, uuid := s0.uuid } := by
    rw [createVault_success s0 v p hv hp]
    rfl
  have e2 : (UnlockVault
      { store := repoSave s0.store v (createdMeta v p s0.rng),
        sessions := s0.sessions, rng := s0.rng + 2, uuid := s0.uuid } v p).2 =
      { store := repoSave s0.store v (createdMeta v p s0.rng),
        sessions := assocSet s0.sessions v (freshSession v p s0.rng),
        rng := s0.rng + 2, uuid := s0.uuid } := by
    rw [unlockVault_success _ v p (createdMeta v p s0.rng)
      (assocFind_assocSet_self s0.store v (StoredBytes.meta (createdMeta v p s0.rng)))
      hp rfl rfl]
    rfl
  have e3 : (AddPasswordRecord
      { store := repoSave s0.store v (createdMeta v p s0.rng),
        sessions := assocSet s0.sessions v (freshSession v p s0.rng),
        rng := s0.rng + 2, uuid := s0.uuid } v n u sec nowC nowU).2 =
      { store := repoSave (repoSave s0.store v (createdMeta v p s0.rng)) v
          (savedMeta (createdMeta v p s0.rng)
            (oneRecordSession v p s0.rng
              { id := s0.uuid, name := n, username := u, password := sec,
                createdAt := nowC, updatedAt := nowU })
            (s0.rng + 2)),
        sessions := assocSet (assocSet s0.sessions v (freshSession v p s0.rng)) v
          (oneRecordSession v p s0.rng
            { id := s0.uuid, name := n, username := u, password := sec,
              createdAt := nowC, updatedAt := nowU }),
        rng := s0.rng + 3, uuid := s0.uuid + 1 } := by
    rw [addRecord_success _ v n u sec nowC nowU (freshSession v p s0.rng) (createdMeta v p s0.rng)
      (assocFind_assocSet_self s0.sessions v (freshSession v p s0.rng)) rfl
      (assocFind_assocSet_self s0.store v (StoredBytes.meta (createdMeta v p s0.rng)))]
    rfl
  have e4 : (LockVault
      { store := repoSave (repoSave s0.store v (createdMeta v p s0.rng)) v
          (savedMeta (createdMeta v p s0.rng)
            (oneRecordSession v p s0.rng
              { id := s0.uuid, name := n, username := u, password := sec,
                createdAt := nowC, updatedAt := nowU })
            (s0.rng + 2)),
        sessions := assocSet (assocSet s0.sessions v (freshSession v p s0.rng)) v
          (oneRecordSession v p s0.rng
            { id := s0.uuid, name := n, username := u, password := sec,
              createdAt := nowC, updatedAt := nowU }),
        rng := s0.rng + 3, uuid := s0.uuid + 1 } v).2 =
      { store := repoSave (repoSave s0.store v (createdMeta v p s0.rng)) v
          (savedMeta (createdMeta v p s0.rng)
            (oneRecordSession v p s0.rng
              { id := s0.uuid, name := n, username := u, password := sec,
                createdAt := nowC, updatedAt := nowU })
            (s0.rng + 2)),
        sessions := assocErase
          (assocSet (assocSet s0.sessions v (freshSession v p s0.rng)) v
            (oneRecordSession v p s0.rng
              { id := s0.uuid, name := n, username := u, password := sec,
                createdAt := nowC, updatedAt := nowU }))
          v,
        rng := s0.rng + 3, uuid := s0.uuid + 1 } := by
    rw [lockVault_found _ v
      (oneRecordSession v p s0.rng
        { id := s0.uuid, name := n, username := u, password := sec,
          createdAt := nowC, updatedAt := nowU })
      (assocFind_assocSet_self _ v _)]
  have e5 : (UnlockVault
      { store := repoSave (repoSave s0.store v (createdMeta v p s0.rng)) v
          (savedMeta (createdMeta v p s0.rng)
            (oneRecordSession v p s0.rng
              { id := s0.uuid, name := n, username := u, password := sec,
                createdAt := nowC, updatedAt := nowU })
            (s0.rng + 2)),
        sessions := assocErase
          (assocSet (assocSet s0.sessions v (freshSession v p s0.rng)) v
            (oneRecordSession v p s0.rng
              { id := s0.uuid, name := n, username := u, password := sec,
                createdAt := nowC, updatedAt := nowU }))
          v,
        rng := s0.rng + 3, uuid := s0.uuid + 1 } v p).2 =
      { store := repoSave (repoSave s0.store v (createdMeta v p s0.rng)) v
          (savedMeta (createdMeta v p s0.rng)
            (oneRecordSession v p s0.rng
              { id := s0.uuid, name := n, username := u, password := sec,
                createdAt := nowC, updatedAt := nowU })
            (s0.rng + 2)),
        sessions := assocSet
          (assocErase
            (assocSet (assocSet s0.sessions v (freshSession v p s0.rng)) v
              (oneRecordSession v p s0.rng
                { id := s0.uuid, name := n, username := u, password := sec,
                  createdAt := nowC, updatedAt := nowU }))
            v)
          v
          (oneRecordSession v p s0.rng
            { id := s0.uuid, name := n, username := u, password := sec,
              createdAt := nowC, updatedAt := nowU }),
        rng := s0.rng + 3, uuid := s0.uuid + 1 } := by
    rw [unlockVault_success _ v p
      (savedMeta (createdMeta v p s0.rng)
        (oneRecordSession v p s0.rng
          { id := s0.uuid, name := n, username := u, password := sec,
            createdAt := nowC, updatedAt := nowU })
        (s0.rng + 2))
      (assocFind_assocSet_self _ v _) hp rfl rfl]
    rfl
  have e6 : GetPasswordRecord
      { store := repoSave (repoSave s0.store v (createdMeta v p s0.rng)) v
          (savedMeta (createdMeta v p s0.rng)
            (oneRecordSession v p s0.rng
              { id := s0.uuid, name := n, username := u, password := sec,
                createdAt := nowC, updatedAt := nowU })
            (s0.rng + 2)),
        sessions := assocSet
          (assocErase
            (assocSet (assocSet s0.sessions v (freshSession v p s0.rng)) v
              (oneRecordSession v p s0.rng
                { id := s0.uuid, name := n, username := u, password := sec,
                  createdAt := nowC, updatedAt := nowU }))
            v)
          v
          (oneRecordSession v p s0.rng
            { id := s0.uuid, name := n, username := u, password := sec,
              createdAt := nowC, updatedAt := nowU }),
        rng := s0.rng + 3, uuid := s0.uuid + 1 } v n =
      Except.ok { id := s0.uuid, name := n, username := u, password := sec,
                  createdAt := nowC, updatedAt := nowU } := by
    simp [GetPasswordRecord, assocFind_assocSet_self, oneRecordSession, List.find?]
  unfold roundTrip
  rw [e1, e2, e3, e4, e5, e6]

/-- Witness for C1 (amended): the concrete round trip of the spec's test
vector, with passphrase "pw", returns exactly the added record with
createdAt equal to updatedAt. -/
theorem C1_roundtrip_witness :
    roundTrip { store := [], sessions := [], rng := 0, uuid := 0 } "v" "pw" "github" "alice"
      "p@ss1" 3 3 =
      Except.ok { id := 0, name := "github", username := "alice", password := "p@ss1",
                  createdAt := 3, updatedAt := 3 } :=
  C1_roundtrip { store := [], sessions := [], rng := 0, uuid := 0 } "v" "pw" "github" "alice"
    "p@ss1" 3 3 rfl (by decide)

/-- C10: for every unlocked vault, when the persistence step of
addRecord fails after the record has been appended — here, the re-load of
the still-current metadata inside saveVault returns an error because the
store entry is missing or unparsable — the call returns that very error,
yet the appended record remains in the in-memory session vault: the
in-memory state is not rolled back. -/
theorem C10_add_not_rolled_back (s : EngineState)
    (vaultName recordName username password : String) (nowC nowU : Nat) (sess : Session)
    (e : VErr)
    (hs : assocFind s.sessions vaultName = some sess)
    (hdup : hasRecordName sess.vault.records recordName = false)
    (hload : repoLoad s.store vaultName = Except.error e) :
    (AddPasswordRecord s vaultName recordName username password nowC nowU).1 = Except.error e
    ∧ assocFind (AddPasswordRecord s vaultName recordName username password nowC nowU).2.sessions
        vaultName =
      some (appendSession sess (newRecord s recordName username password nowC nowU)) := by
  have heq : AddPasswordRecord s vaultName recordName username password nowC nowU =
      (Except.error e,
       { store := s.store,
         sessions := assocSet s.sessions vaultName
           (appendSession sess (newRecord s recordName username password nowC nowU)),
         rng := s.rng + 1, uuid := s.uuid + 1 }) := by
    simp [AddPasswordRecord, saveVault, encrypt, appendSession, newRecord, hs, hdup, hload]
  rw [heq]
  exact ⟨rfl, assocFind_assocSet_self _ _ _⟩

/-- A session is open for "v" but the store entry was removed underneath
it by an external process, so the next save's re-load fails. -/
def c10State : EngineState :=
  { store := [],
    sessions := [("v", { vault := { name := "v", records := [] },
                         key := { password := "pw", salt := Salt.mk 0 } })],
    rng := 2, uuid := 0 }

/-- Witness for C10: the add reports the load failure while the new
record stays in the in-memory session. -/
theorem C10_add_not_rolled_back_witness :
    (AddPasswordRecord c10State "v" "github" "alice" "p1" 7 7).1 =
      Except.error VErr.vaultNotFound
    ∧ assocFind (AddPasswordRecord c10State "v" "github" "alice" "p1" 7 7).2.sessions "v" =
      some (appendSession
             { vault := { name := "v", records := [] },
               key := { password := "pw", salt := Salt.mk 0 } }
             (newRecord c10State "github" "alice" "p1" 7 7)) :=
  C10_add_not_rolled_back c10State "v" "github" "alice" "p1" 7 7
    { vault := { name := "v", records := [] }, key := { password := "pw", salt := Salt.mk 0 } }
    VErr.vaultNotFound rfl rfl rfl

/-- The mutex-guarded session lookup of AddPasswordRecord
(service.go:148-154) followed by the UNGUARDED duplicate scan of
service.go:157-161, as one step of an interleaved execution: none when no
session exists, otherwise whether the shared vault currently holds a
record with the given name. -/
def addCheckPhase (s : EngineState) (vaultName recordName : String) : Option Bool :=
  match assocFind s.sessions vaultName with
  | none => none
  | some sess => some (hasRecordName sess.vault.records recordName)

/-- The record construction and mutex-guarded append of
service.go:163-176, as one step: appends through the shared session
handle, as the Go code does via the session pointer. -/
def addAppendPhase (s : EngineState) (vaultName recordName username password : String)
    (nowC nowU : Nat) : EngineState :=
  match assocFind s.sessions vaultName with
  | none => s
  | some sess =>
      { s with
          sessions := assocSet s.sessions vaultName
            (appendSession sess (newRecord s recordName username password nowC nowU)),
          uuid := s.uuid + 1 }

/-- The persistence step of service.go:179: saves the CURRENT shared
session, as the Go code does through the shared pointer. -/
def addSavePhase (s : EngineState) (vaultName : String) : Except VErr Unit × EngineState :=
  match assocFind s.sessions vaultName with
  | none => (Except.error VErr.vaultNotFound, s)
  | some sess => saveVault s vaultName sess

/-- Run back to back with no interleaving, the phases compose to exactly
AddPasswordRecord: the decomposition is faithful to the source. -/
theorem addRecord_eq_phases (s : EngineState)
    (vaultName recordName username password : String) (nowC nowU : Nat) (sess : Session)
    (hs : assocFind s.sessions vaultName = some sess)
    (hdup : hasRecordName sess.vault.records recordName = false) :
    AddPasswordRecord s vaultName recordName username password nowC nowU =
      (match addSavePhase (addAppendPhase s vaultName recordName username password nowC nowU)
          vaultName with
       | (Except.error e, s2) => (Except.error e, s2)
       | (Except.ok _, s2) => (Except.ok (), s2)) := by
  simp [AddPasswordRecord, addAppendPhase, addSavePhase, appendSession, newRecord, hs, hdup,
        assocFind_assocSet_self]

/-- Shared state after thread 1's locked append (both threads' unguarded
duplicate scans already ran on the initial state). -/
def raceS1 : EngineState :=
  addAppendPhase (demoUnlocked "v" "pw") "v" "github" "alice" "p1" 10 10

/-- Shared state after thread 1's save. -/
def raceS2 : EngineState := (addSavePhase raceS1 "v").2

/-- Shared state after thread 2's locked append. -/
def raceS3 : EngineState := addAppendPhase raceS2 "v" "github" "bob" "p2" 11 11

/-- Shared state after thread 2's save. -/
def raceS4 : EngineState := (addSavePhase raceS3 "v").2

/-- C9 [race evidence]: interleave two addRecord("v","github",...) calls
so that both run the unguarded duplicate scan of service.go:157-161
before either appends (the scan holds no lock, so this interleaving is
admissible).  Both scans report "no duplicate", both saves return
success — so both calls return success — and the final shared session
holds TWO records named "github": the check-then-append pair is not
atomic and the claimed per-vault serialization of mutations fails. -/
theorem C9_race_duplicate :
    addCheckPhase (demoUnlocked "v" "pw") "v" "github" = some false
    ∧ (addSavePhase raceS1 "v").1 = Except.ok ()
    ∧ (addSavePhase raceS3 "v").1 = Except.ok ()
    ∧ (assocFind raceS4.sessions "v").map
        (fun sess => (sess.vault.records.filter fun r => r.name = "github").length) =
      some 2 :=
  ⟨rfl, rfl, rfl, rfl⟩

end PwdManager
